import Mathlib

/-!
Verification of the pre.dev API Node client (`predev-api-node/src/client.ts`).

The development shallowly embeds the client's request-building and
response-classification logic: JavaScript values reachable from the client are
modelled by the inductive `Predev.Json`, the `fetch` `Response` object by
`Predev.Response` (with the outcomes of `response.json()` / `response.text()`
made explicit), and each public operation by a request builder plus the shared
try/catch response classifier.  All definitions are translated directly from
the TypeScript source.
-/

namespace Predev

/-- A JSON-representable JavaScript value, as produced by `JSON.parse` or
passed to `JSON.stringify`.  Numbers are modelled as integers. -/
inductive Json where
  | null : Json
  | bool (b : Bool) : Json
  | num (n : Int) : Json
  | str (s : String) : Json
  | arr (xs : List Json) : Json
  | obj (kvs : List (String × Json)) : Json

/-- First-match lookup in an association list keyed by strings (JavaScript
objects built by `JSON.parse` have unique keys). -/
def lookupKey {α : Type} : List (String × α) → String → Option α
  | [], _ => none
  | (k2, v) :: rest, k => if k2 = k then some v else lookupKey rest k

/-- JavaScript property access `j.k` on a parsed non-null JSON value: `some v`
when `j` is an object with field `k`, otherwise `none` (i.e. `undefined`;
primitives wrap without throwing).  Access on `null` throws a TypeError
instead and is modelled separately in `errorBodyMessage`. -/
def Json.getField : Json → String → Option Json
  | .obj kvs, k => lookupKey kvs k
  | _, _ => none

/-- Whether a JSON value is `null`. -/
def Json.isNull : Json → Bool
  | .null => true
  | _ => false

/-- JavaScript truthiness of a JSON value (`null`, `false`, `0` and `""` are
falsy; arrays and objects are always truthy). -/
def truthy : Json → Bool
  | .null => false
  | .bool b => b
  | .num n => n != 0
  | .str s => s ≠ ""
  | .arr _ => true
  | .obj _ => true

/-- Uppercase hexadecimal digit for `n < 16`, as used by the urlencoded
percent-encoding. -/
def hexDigit (n : Nat) : Char :=
  if n < 10 then Char.ofNat (48 + n) else Char.ofNat (55 + n)

/-- Lowercase hexadecimal digit for `n < 16`, as used by `JSON.stringify`'s
`\u00xx` escapes. -/
def hexDigitLower (n : Nat) : Char :=
  if n < 10 then Char.ofNat (48 + n) else Char.ofNat (87 + n)

/-- Escaping of a single character inside a JSON string literal, as performed
by `JSON.stringify` (control characters use lowercase hex). -/
def escapeJsonChar (c : Char) : String :=
  if c = '"' then "\\\""
  else if c = '\\' then "\\\\"
  else if c = '\n' then "\\n"
  else if c = '\t' then "\\t"
  else if c = '\r' then "\\r"
  else if c.toNat = 8 then "\\b"
  else if c.toNat = 12 then "\\f"
  else if c.toNat < 32 then
    "\\u00" ++ String.singleton (hexDigitLower (c.toNat / 16)) ++
      String.singleton (hexDigitLower (c.toNat % 16))
  else String.singleton c

/-- A JSON string literal: `JSON.stringify` applied to a string. -/
def quoteJson (s : String) : String :=
  "\"" ++ String.join (s.data.map escapeJsonChar) ++ "\""

mutual

/-- `JSON.stringify` on the modelled values. -/
def jsonStringify : Json → String
  | .null => "null"
  | .bool b => cond b "true" "false"
  | .num n => toString n
  | .str s => quoteJson s
  | .arr xs => "[" ++ stringifyElems xs ++ "]"
  | .obj kvs => "\x7b" ++ stringifyFields kvs ++ "\x7d"

/-- Comma-separated `JSON.stringify` of array elements. -/
def stringifyElems : List Json → String
  | [] => ""
  | [x] => jsonStringify x
  | x :: y :: xs => jsonStringify x ++ "," ++ stringifyElems (y :: xs)

/-- Comma-separated `"key":value` serialization of object fields. -/
def stringifyFields : List (String × Json) → String
  | [] => ""
  | [(k, v)] => quoteJson k ++ ":" ++ jsonStringify v
  | (k, v) :: p :: kvs =>
      quoteJson k ++ ":" ++ jsonStringify v ++ "," ++ stringifyFields (p :: kvs)

end

mutual

/-- JavaScript string coercion `String(v)` / template-literal interpolation of
a JSON value (arrays join their elements with `","`, objects render as
`"[object Object]"`). -/
def jsTemplate : Json → String
  | .null => "null"
  | .bool b => cond b "true" "false"
  | .num n => toString n
  | .str s => s
  | .arr xs => joinElems xs
  | .obj _ => "[object Object]"

/-- `Array.prototype.join(",")`: `null` elements render as the empty string. -/
def joinElems : List Json → String
  | [] => ""
  | [.null] => ""
  | [x] => jsTemplate x
  | .null :: y :: xs => "," ++ joinElems (y :: xs)
  | x :: y :: xs => jsTemplate x ++ "," ++ joinElems (y :: xs)

end

/-- The error taxonomy of `exceptions.ts`: `PredevAPIError` and its two
subclasses `AuthenticationError` and `RateLimitError`, each carrying a
message. -/
inductive ApiError where
  | predev (msg : String) : ApiError
  | authentication (msg : String) : ApiError
  | rateLimit (msg : String) : ApiError
deriving DecidableEq

/-- An exception observable in the client's try/catch blocks: either one of
the client's own `PredevAPIError`s or some other JavaScript `Error` carrying a
message (e.g. a JSON `SyntaxError` or a `fetch` network `TypeError`). -/
inductive JsError where
  | api (e : ApiError) : JsError
  | other (msg : String) : JsError
deriving DecidableEq

/-- A `fetch` `Response` as consumed by `handleResponse`: its HTTP status and
the outcomes of reading the body via `response.json()` (which may reject when
the body is not valid JSON) and via `response.text()` (which may reject, e.g.
when the body stream was already consumed). -/
structure Response where
  status : Nat
  jsonBody : Except String Json
  textBody : Except String String

/-- `response.ok` per the Fetch standard: status in the range 200-299. -/
def Response.ok (r : Response) : Bool :=
  200 ≤ r.status && r.status ≤ 299

/-- The JavaScript expression
`errorData.error || errorData.message || JSON.stringify(errorData)` restricted
to the field `k`: the coerced field value when it is truthy, otherwise the
fallback. -/
def jsFieldOr (j : Json) (k : String) (fallback : String) : String :=
  match j.getField k with
  | some v => if truthy v then jsTemplate v else fallback
  | none => fallback

/-- The body of the outer try block of `handleResponse`'s message assembly:
`errorData.error || errorData.message || JSON.stringify(errorData)`.
When the parsed body is JSON `null`, the property access `errorData.error`
throws a TypeError, which the enclosing catch routes to the text fallback. -/
def errorBodyMessage : Json → Except String String
  | .null => .error "Cannot read properties of null (reading 'error')"
  | errorData =>
      .ok (jsFieldOr errorData "error"
        (jsFieldOr errorData "message" (jsonStringify errorData)))

/-- `handleResponse` from `client.ts`: 2xx returns the parsed JSON body (a
`json()` rejection propagates to the caller's catch as a non-`PredevAPIError`);
401 throws `AuthenticationError`, 429 throws `RateLimitError`; any other
status throws `PredevAPIError` with a message assembled from the body: the
outer try parses the body and reads its fields (throwing on a `null` body),
and any throw there falls back to `response.text()`. -/
def handleResponse (r : Response) : Except JsError Json :=
  if r.ok then
    match r.jsonBody with
    | .ok v => .ok v
    | .error m => .error (.other m)
  else if r.status = 401 then
    .error (.api (.authentication "Invalid API key"))
  else if r.status = 429 then
    .error (.api (.rateLimit "Rate limit exceeded"))
  else
    let tryMessage : Except String String :=
      match r.jsonBody with
      | .ok errorData => errorBodyMessage errorData
      | .error m => .error m
    let errorMessage :=
      match tryMessage with
      | .ok m => m
      | .error _ =>
          match r.textBody with
          | .ok textError => if textError = "" then "Unknown error" else textError
          | .error _ => "HTTP " ++ toString r.status
    .error (.api (.predev
      ("API request failed with status " ++ toString r.status ++ ": " ++ errorMessage)))

/-- The outcome of the `fetch` call itself: a response, or a rejection
(transport-level failure such as DNS error, connection refused, timeout). -/
inductive FetchOutcome where
  | success (r : Response) : FetchOutcome
  | failure (e : JsError) : FetchOutcome

/-- The catch block shared verbatim by every public method:
`if (error instanceof PredevAPIError) throw error;` otherwise wrap the
error's message in `new PredevAPIError("Request failed: " + message)`. -/
def catchWrap : Except JsError Json → Except ApiError Json
  | .ok v => .ok v
  | .error (.api e) => .error e
  | .error (.other m) => .error (.predev ("Request failed: " ++ m))

/-- The full response path of every public method: await `fetch`, feed a
fulfilled response through `handleResponse`, and run the shared catch block
over any exception. -/
def runFetch : FetchOutcome → Except ApiError Json
  | .failure e => catchWrap (.error e)
  | .success r => catchWrap (handleResponse r)

/-! ## Client construction (`constructor` in `client.ts`) -/

/-- `PredevAPIConfig` from `types.ts`: the API key plus an optional base-URL
override. -/
structure PredevAPIConfig where
  apiKey : String
  baseUrl : Option String

/-- The state a constructed `PredevAPI` instance holds: the key, the
normalized base URL, and the default header record. -/
structure PredevAPI where
  apiKey : String
  baseUrl : String
  headers : List (String × String)

/-- `s.replace(/\/$/, "")`: remove a single trailing slash when present. -/
def replaceTrailingSlash (s : String) : String :=
  if s.data.getLast? = some '/' then String.mk s.data.dropLast else s

/-- JavaScript `a || b` on strings: `b` when `a` is empty (falsy), else `a`. -/
def jsOrDefault (a : String) (b : String) : String :=
  if a = "" then b else a

/-- `config.baseUrl?.replace(/\/$/, "") || "https://api.pre.dev"`: an absent
base URL (and one that normalizes to the empty string) falls back to the
default origin. -/
def normalizeBaseUrl : Option String → String
  | none => "https://api.pre.dev"
  | some s => jsOrDefault (replaceTrailingSlash s) "https://api.pre.dev"

/-- The `PredevAPI` constructor: store the key, normalize the base URL, and
set up the default headers with the Authorization bearer token. -/
def PredevAPI.create (config : PredevAPIConfig) : PredevAPI :=
  { apiKey := config.apiKey
    baseUrl := normalizeBaseUrl config.baseUrl
    headers :=
      [("Authorization", "Bearer " ++ config.apiKey),
       ("Content-Type", "application/json")] }

/-- `this.headers.Authorization`: JavaScript property access on the header
record (reads `"undefined"` only if the property were missing, which never
happens for a constructed client). -/
def PredevAPI.authHeaderValue (c : PredevAPI) : String :=
  (lookupKey c.headers "Authorization").getD "undefined"

/-! ## File attachments (`types.ts` and the private file helpers) -/

/-- The `File` type of `types.ts`: `Blob | { data: Buffer; name: string }`.
A `Blob` carries its bytes, its MIME `type` string (empty when unset) and —
when it is a DOM `File` — a `name`; the Node-style variant carries a buffer
and a name. -/
inductive JsFile where
  | blob (data : List Nat) (type : String) (name : Option String) : JsFile
  | buffer (data : List Nat) (name : String) : JsFile

/-- A `Blob` value as handed to `FormData.append`. -/
structure BlobValue where
  data : List Nat
  type : String
deriving DecidableEq

/-- `normalizeFile`: a `Blob` is returned as-is; a `{data, name}` object is
wrapped in `new Blob([file.data], { type: "application/octet-stream" })`. -/
def normalizeFile : JsFile → BlobValue
  | .blob d t _ => { data := d, type := t }
  | .buffer d _ => { data := d, type := "application/octet-stream" }

/-- `getFileName`: for a `Blob` with a truthy (non-empty) `type`, the name is
`upload.pdf` when the type is `application/pdf` and `upload.txt` otherwise;
in every other case `(file as any).name || "upload.txt"`. -/
def getFileName : JsFile → String
  | .blob _ t nm =>
      if t ≠ "" then
        if t = "application/pdf" then "upload.pdf" else "upload.txt"
      else
        match nm with
        | some n => if n = "" then "upload.txt" else n
        | none => "upload.txt"
  | .buffer _ n => if n = "" then "upload.txt" else n

/-! ## Outbound requests -/

/-- One entry of a `FormData` object: a text field, or a binary file part with
an explicit filename. -/
inductive FormPart where
  | text (key value : String) : FormPart
  | file (key : String) (content : BlobValue) (filename : String) : FormPart
deriving DecidableEq

/-- The field name of a form part. -/
def FormPart.key : FormPart → String
  | .text k _ => k
  | .file k _ _ => k

/-- The body handed to `fetch`: a JavaScript object to be serialized by
`JSON.stringify`, a `FormData` object, or none (GET requests). -/
inductive Body where
  | json (value : Json) : Body
  | form (parts : List FormPart) : Body
  | empty : Body

/-- One outbound HTTP request as passed to `fetch`. -/
structure Request where
  url : String
  method : String
  headers : List (String × String)
  body : Body

/-- An optional JSON field: present exactly when the option is `some`. -/
def optJsonField (k : String) : Option Json → List (String × Json)
  | some v => [(k, v)]
  | none => []

/-- The JSON payload of `makeRequest` (no file): `input` always, then
`currentContext` and `docURLs` only when defined. -/
def jsonPayload (input : String) (currentContext : Option String)
    (docURLs : Option (List String)) : List (String × Json) :=
  [("input", Json.str input)]
    ++ optJsonField "currentContext" (currentContext.map Json.str)
    ++ optJsonField "docURLs" (docURLs.map fun ds => Json.arr (ds.map Json.str))

/-- The JSON payload of `makeRequestAsync`: additionally `async: true`. -/
def jsonPayloadAsync (input : String) (currentContext : Option String)
    (docURLs : Option (List String)) : List (String × Json) :=
  [("input", Json.str input), ("async", Json.bool true)]
    ++ optJsonField "currentContext" (currentContext.map Json.str)
    ++ optJsonField "docURLs" (docURLs.map fun ds => Json.arr (ds.map Json.str))

/-- The `FormData` built by `makeRequestWithFile`: `input` as a text part,
optional `currentContext` text part, `docURLs` JSON-encoded into a single
text part, and the file under the fixed field name `"file"`. -/
def formParts (input : String) (currentContext : Option String)
    (docURLs : Option (List String)) (f : JsFile) : List FormPart :=
  [FormPart.text "input" input]
    ++ (match currentContext with
        | some c => [FormPart.text "currentContext" c]
        | none => [])
    ++ (match docURLs with
        | some ds => [FormPart.text "docURLs" (jsonStringify (Json.arr (ds.map Json.str)))]
        | none => [])
    ++ [FormPart.file "file" (normalizeFile f) (getFileName f)]

/-- The `FormData` built by `makeRequestWithFileAsync`: as `formParts` but
with the text part `async=true` appended right after `input`. -/
def formPartsAsync (input : String) (currentContext : Option String)
    (docURLs : Option (List String)) (f : JsFile) : List FormPart :=
  [FormPart.text "input" input, FormPart.text "async" "true"]
    ++ (match currentContext with
        | some c => [FormPart.text "currentContext" c]
        | none => [])
    ++ (match docURLs with
        | some ds => [FormPart.text "docURLs" (jsonStringify (Json.arr (ds.map Json.str)))]
        | none => [])
    ++ [FormPart.file "file" (normalizeFile f) (getFileName f)]

/-- `makeRequestWithFile`: POST the form to `url` with only the Authorization
header (no Content-Type, so the platform supplies the multipart boundary). -/
def makeRequestWithFile (c : PredevAPI) (url input : String)
    (currentContext : Option String) (docURLs : Option (List String))
    (f : JsFile) : Request :=
  { url := url
    method := "POST"
    headers := [("Authorization", c.authHeaderValue)]
    body := .form (formParts input currentContext docURLs f) }

/-- `makeRequestWithFileAsync`: as `makeRequestWithFile` with the async form
field. -/
def makeRequestWithFileAsync (c : PredevAPI) (url input : String)
    (currentContext : Option String) (docURLs : Option (List String))
    (f : JsFile) : Request :=
  { url := url
    method := "POST"
    headers := [("Authorization", c.authHeaderValue)]
    body := .form (formPartsAsync input currentContext docURLs f) }

/-- `makeRequest`: route to the file branch when a file is supplied, else
POST the JSON payload with the default headers. -/
def makeRequest (c : PredevAPI) (endpoint input : String)
    (currentContext : Option String) (docURLs : Option (List String))
    (file : Option JsFile) : Request :=
  let url := c.baseUrl ++ endpoint
  match file with
  | some f => makeRequestWithFile c url input currentContext docURLs f
  | none =>
      { url := url
        method := "POST"
        headers := c.headers
        body := .json (.obj (jsonPayload input currentContext docURLs)) }

/-- `makeRequestAsync`: as `makeRequest` with `async: true` in the payload. -/
def makeRequestAsync (c : PredevAPI) (endpoint input : String)
    (currentContext : Option String) (docURLs : Option (List String))
    (file : Option JsFile) : Request :=
  let url := c.baseUrl ++ endpoint
  match file with
  | some f => makeRequestWithFileAsync c url input currentContext docURLs f
  | none =>
      { url := url
        method := "POST"
        headers := c.headers
        body := .json (.obj (jsonPayloadAsync input currentContext docURLs)) }

/-! ## Query strings (`URLSearchParams`) and the GET operations -/

/-- UTF-8 encoding of a single character, as a list of byte values. -/
def utf8Bytes (c : Char) : List Nat :=
  let n := c.toNat
  if n < 128 then [n]
  else if n < 2048 then [192 + n / 64, 128 + n % 64]
  else if n < 65536 then [224 + n / 4096, 128 + (n / 64) % 64, 128 + n % 64]
  else [240 + n / 262144, 128 + (n / 4096) % 64, 128 + (n / 64) % 64, 128 + n % 64]

/-- Whether a byte stays unescaped in `application/x-www-form-urlencoded`
serialization: digits, ASCII letters, and `*`, `-`, `.`, `_`. -/
def formSafeByte (b : Nat) : Bool :=
  (48 ≤ b && b ≤ 57) || (65 ≤ b && b ≤ 90) || (97 ≤ b && b ≤ 122) ||
  b = 42 || b = 45 || b = 46 || b = 95

/-- Urlencoded serialization of one byte: space becomes `+`, safe bytes stay,
everything else is percent-encoded with uppercase hex digits. -/
def encodeByte (b : Nat) : String :=
  if b = 32 then "+"
  else if formSafeByte b then String.singleton (Char.ofNat b)
  else "%" ++ String.singleton (hexDigit (b / 16)) ++ String.singleton (hexDigit (b % 16))

/-- Urlencoded serialization of a string, as `URLSearchParams.toString()`
applies to each name and value. -/
def urlencode (s : String) : String :=
  String.join ((s.data.flatMap utf8Bytes).map encodeByte)

/-- One `name=value` pair of `URLSearchParams.toString()`. -/
def serializePair (p : String × String) : String :=
  urlencode p.1 ++ "=" ++ urlencode p.2

/-- `URLSearchParams.toString()`: the appended pairs joined with `&` in
append order. -/
def serializeQuery : List (String × String) → String
  | [] => ""
  | [p] => serializePair p
  | p :: q :: rest => serializePair p ++ "&" ++ serializeQuery (q :: rest)

/-- `ListSpecsParams` from `types.ts` (numbers modelled as integers). -/
structure ListSpecsParams where
  limit : Option Int
  skip : Option Int
  endpoint : Option String
  status : Option String

/-- `FindSpecsParams` from `types.ts`: the required regex `query` plus the
same optional filters. -/
structure FindSpecsParams where
  query : String
  limit : Option Int
  skip : Option Int
  endpoint : Option String
  status : Option String

/-- The `URLSearchParams` pairs appended by `listSpecs`: each of `limit`,
`skip`, `endpoint`, `status` only when the caller supplied it (`params`
itself is optional). -/
def listSpecsQueryList : Option ListSpecsParams → List (String × String)
  | none => []
  | some p =>
      (match p.limit with | some n => [("limit", toString n)] | none => [])
        ++ (match p.skip with | some n => [("skip", toString n)] | none => [])
        ++ (match p.endpoint with | some e => [("endpoint", e)] | none => [])
        ++ (match p.status with | some s => [("status", s)] | none => [])

/-- The `URLSearchParams` pairs appended by `findSpecs`: `query` is appended
unconditionally and first, then the optional filters. -/
def findSpecsQueryList (p : FindSpecsParams) : List (String × String) :=
  [("query", p.query)]
    ++ (match p.limit with | some n => [("limit", toString n)] | none => [])
    ++ (match p.skip with | some n => [("skip", toString n)] | none => [])
    ++ (match p.endpoint with | some e => [("endpoint", e)] | none => [])
    ++ (match p.status with | some s => [("status", s)] | none => [])

/-- `listSpecs`: GET `/list-specs`, appending `?` plus the query string only
when it is non-empty. -/
def listSpecsRequest (c : PredevAPI) (params : Option ListSpecsParams) : Request :=
  let queryString := serializeQuery (listSpecsQueryList params)
  { url := c.baseUrl ++ "/list-specs" ++
      (if queryString = "" then "" else "?" ++ queryString)
    method := "GET"
    headers := c.headers
    body := .empty }

/-- `findSpecs`: GET `/find-specs` with the query string always appended. -/
def findSpecsRequest (c : PredevAPI) (p : FindSpecsParams) : Request :=
  { url := c.baseUrl ++ "/find-specs?" ++ serializeQuery (findSpecsQueryList p)
    method := "GET"
    headers := c.headers
    body := .empty }

/-- `getSpecStatus`: GET `/spec-status/<specId>`. -/
def getSpecStatusRequest (c : PredevAPI) (specId : String) : Request :=
  { url := c.baseUrl ++ "/spec-status/" ++ specId
    method := "GET"
    headers := c.headers
    body := .empty }

/-- `getCreditsBalance`: GET `/credits-balance`. -/
def getCreditsBalanceRequest (c : PredevAPI) : Request :=
  { url := c.baseUrl ++ "/credits-balance"
    method := "GET"
    headers := c.headers
    body := .empty }

/-! ## The public operations -/

/-- `SpecGenOptions` from `types.ts`. -/
structure SpecGenOptions where
  input : String
  currentContext : Option String
  docURLs : Option (List String)
  file : Option JsFile

/-- One invocation of a public client method, with its arguments. -/
inductive Operation where
  | fastSpec (opts : SpecGenOptions) : Operation
  | deepSpec (opts : SpecGenOptions) : Operation
  | fastSpecAsync (opts : SpecGenOptions) : Operation
  | deepSpecAsync (opts : SpecGenOptions) : Operation
  | getSpecStatus (specId : String) : Operation
  | listSpecs (params : Option ListSpecsParams) : Operation
  | findSpecs (params : FindSpecsParams) : Operation
  | getCreditsBalance : Operation

/-- The outbound request each public method hands to `fetch`. -/
def Operation.request (c : PredevAPI) : Operation → Request
  | .fastSpec o => makeRequest c "/fast-spec" o.input o.currentContext o.docURLs o.file
  | .deepSpec o => makeRequest c "/deep-spec" o.input o.currentContext o.docURLs o.file
  | .fastSpecAsync o => makeRequestAsync c "/fast-spec" o.input o.currentContext o.docURLs o.file
  | .deepSpecAsync o => makeRequestAsync c "/deep-spec" o.input o.currentContext o.docURLs o.file
  | .getSpecStatus specId => getSpecStatusRequest c specId
  | .listSpecs params => listSpecsRequest c params
  | .findSpecs params => findSpecsRequest c params
  | .getCreditsBalance => getCreditsBalanceRequest c

/-- The response path of each public method.  In the source every method
wraps its `fetch` and `handleResponse` in a textually identical try/catch, so
the classification is the same `runFetch` for all of them and does not depend
on the operation's arguments. -/
def Operation.run (_c : PredevAPI) (_op : Operation)
    (outcome : FetchOutcome) : Except ApiError Json :=
  runFetch outcome

/-! ## Theorems -/

/-- Helper: removing the final element of a list that ends in `'/'` leaves a
list not ending in `'/'`, provided the original did not end in two slashes. -/
theorem dropLast_getLast?_ne_slash (l : List Char)
    (hl : l.getLast? = some '/') (h2 : l.reverse.take 2 ≠ ['/', '/']) :
    l.dropLast.getLast? ≠ some '/' := by
  obtain ⟨ys, rfl⟩ := List.getLast?_eq_some_iff.mp hl
  rw [List.dropLast_concat]
  intro hys
  apply h2
  obtain ⟨zs, rfl⟩ := List.getLast?_eq_some_iff.mp hys
  simp [List.reverse_append]

/-- C2: for every operation, an HTTP 401 response raises
`AuthenticationError("Invalid API key")` and no other error kind, and an HTTP
429 response raises `RateLimitError("Rate limit exceeded")` and no other
error kind. -/
theorem claim2_status_401_429 (c : PredevAPI) (op : Operation) (r : Response) :
    (r.status = 401 →
      Operation.run c op (.success r) = .error (.authentication "Invalid API key")) ∧
    (r.status = 429 →
      Operation.run c op (.success r) = .error (.rateLimit "Rate limit exceeded")) := by
  constructor <;> intro h <;>
    simp [Operation.run, runFetch, handleResponse, Response.ok, h, catchWrap]

/-- C2 witness: a mocked 401 (resp. 429) response to a concrete operation. -/
theorem claim2_witness :
    Response.status ⟨401, .ok (.obj []), .ok ""⟩ = 401 ∧
    Operation.run (PredevAPI.create ⟨"k", none⟩) .getCreditsBalance
        (.success ⟨401, .ok (.obj []), .ok ""⟩)
      = .error (.authentication "Invalid API key") ∧
    Operation.run (PredevAPI.create ⟨"k", none⟩) .getCreditsBalance
        (.success ⟨429, .ok (.obj []), .ok ""⟩)
      = .error (.rateLimit "Rate limit exceeded") :=
  ⟨rfl,
   (claim2_status_401_429 (PredevAPI.create ⟨"k", none⟩) .getCreditsBalance
      ⟨401, .ok (.obj []), .ok ""⟩).1 rfl,
   (claim2_status_401_429 (PredevAPI.create ⟨"k", none⟩) .getCreditsBalance
      ⟨429, .ok (.obj []), .ok ""⟩).2 rfl⟩

/-- C9: for every operation, a transport-level failure of the `fetch` call
itself (a rejection with a non-`PredevAPIError` exception) is surfaced as a
`PredevAPIError` wrapping the underlying message, never as an
`AuthenticationError` or `RateLimitError`. -/
theorem claim9_transport_failure (c : PredevAPI) (op : Operation) (m : String) :
    Operation.run c op (.failure (.other m))
      = .error (.predev ("Request failed: " ++ m)) ∧
    (∀ s, Operation.run c op (.failure (.other m)) ≠ .error (.authentication s)) ∧
    (∀ s, Operation.run c op (.failure (.other m)) ≠ .error (.rateLimit s)) := by
  refine ⟨rfl, ?_, ?_⟩ <;> intro s h <;>
    simp [Operation.run, runFetch, catchWrap] at h

/-- C9 witness: a concrete network failure on a concrete operation. -/
theorem claim9_witness :
    Operation.run (PredevAPI.create ⟨"k", none⟩) .getCreditsBalance
        (.failure (.other "Network error"))
      = .error (.predev "Request failed: Network error") ∧
    Operation.run (PredevAPI.create ⟨"k", none⟩) .getCreditsBalance
        (.failure (.other "Network error"))
      ≠ .error (.authentication "Invalid API key") :=
  ⟨(claim9_transport_failure (PredevAPI.create ⟨"k", none⟩) .getCreditsBalance
      "Network error").1,
   (claim9_transport_failure (PredevAPI.create ⟨"k", none⟩) .getCreditsBalance
      "Network error").2.1 "Invalid API key"⟩

/-- C4: the JSON payload of a non-file generation request carries exactly the
supplied fields: `input` always, `currentContext` and `docURLs` present if
and only if supplied (never as `null`), and no other keys; in the scenario of
input `"Build a todo app"` with no context and no docURLs the serialized body
is exactly `{"input":"Build a todo app"}`. -/
theorem claim4_payload_roundtrip (input : String) (cc : Option String)
    (urls : Option (List String)) :
    lookupKey (jsonPayload input cc urls) "input" = some (.str input) ∧
    lookupKey (jsonPayload input cc urls) "currentContext" = cc.map Json.str ∧
    lookupKey (jsonPayload input cc urls) "docURLs"
      = urls.map (fun ds => Json.arr (ds.map Json.str)) ∧
    (jsonPayload input cc urls).map Prod.fst
      = ["input"]
        ++ (match cc with | some _ => ["currentContext"] | none => [])
        ++ (match urls with | some _ => ["docURLs"] | none => []) ∧
    (jsonPayload input cc urls).all (fun kv => !kv.2.isNull) = true ∧
    lookupKey (jsonPayloadAsync input cc urls) "input" = some (.str input) ∧
    lookupKey (jsonPayloadAsync input cc urls) "currentContext" = cc.map Json.str ∧
    lookupKey (jsonPayloadAsync input cc urls) "docURLs"
      = urls.map (fun ds => Json.arr (ds.map Json.str)) ∧
    (jsonPayloadAsync input cc urls).map Prod.fst
      = ["input", "async"]
        ++ (match cc with | some _ => ["currentContext"] | none => [])
        ++ (match urls with | some _ => ["docURLs"] | none => []) ∧
    jsonStringify (.obj (jsonPayload "Build a todo app" none none))
      = "\x7b\"input\":\"Build a todo app\"\x7d" := by
  cases cc <;> cases urls <;>
    exact ⟨rfl, rfl, rfl, rfl, rfl, rfl, rfl, rfl, rfl, by decide⟩

/-- C6: async-mode request bodies carry the explicit immediate-return flag —
`async: true` in the JSON branch, a text part `async=true` in the multipart
branch — and sync-mode request bodies carry no such flag in either branch. -/
theorem claim6_async_flag (c : PredevAPI) (endpoint input : String)
    (cc : Option String) (urls : Option (List String)) (f : JsFile) :
    (makeRequestAsync c endpoint input cc urls none).body
      = .json (.obj (jsonPayloadAsync input cc urls)) ∧
    lookupKey (jsonPayloadAsync input cc urls) "async" = some (.bool true) ∧
    (makeRequestAsync c endpoint input cc urls (some f)).body
      = .form (formPartsAsync input cc urls f) ∧
    (formPartsAsync input cc urls f).filter (fun p => p.key == "async")
      = [FormPart.text "async" "true"] ∧
    (makeRequest c endpoint input cc urls none).body
      = .json (.obj (jsonPayload input cc urls)) ∧
    lookupKey (jsonPayload input cc urls) "async" = none ∧
    (formParts input cc urls f).filter (fun p => p.key == "async") = [] := by
  cases cc <;> cases urls <;> exact ⟨rfl, rfl, rfl, rfl, rfl, rfl, rfl⟩

/-- C3: every generation request — sync and async alike — without a file
attachment is sent as the JSON serialization of the payload with
`Content-Type: application/json`; with a file attachment the body is a
multipart form — `input` and `currentContext` as text parts, `docURLs`
JSON-encoded into a single text part — and the sent headers contain no
`Content-Type` entry at all, only `Authorization`. -/
theorem claim3_encoding_selection (config : PredevAPIConfig)
    (endpoint input : String) (cc : Option String)
    (urls : Option (List String)) (f : JsFile) :
    ((makeRequest (PredevAPI.create config) endpoint input cc urls none).headers
        = (PredevAPI.create config).headers ∧
      lookupKey (makeRequest (PredevAPI.create config) endpoint input cc urls none).headers
          "Content-Type" = some "application/json" ∧
      (makeRequest (PredevAPI.create config) endpoint input cc urls none).body
        = .json (.obj (jsonPayload input cc urls))) ∧
    ((makeRequest (PredevAPI.create config) endpoint input cc urls (some f)).headers
        = [("Authorization", "Bearer " ++ config.apiKey)] ∧
      lookupKey (makeRequest (PredevAPI.create config) endpoint input cc urls (some f)).headers
          "Content-Type" = none ∧
      (makeRequest (PredevAPI.create config) endpoint input cc urls (some f)).body
        = .form (formParts input cc urls f) ∧
      FormPart.text "input" input ∈ formParts input cc urls f ∧
      (∀ ctx, cc = some ctx →
        FormPart.text "currentContext" ctx ∈ formParts input cc urls f) ∧
      (∀ ds, urls = some ds →
        FormPart.text "docURLs" (jsonStringify (.arr (ds.map Json.str)))
          ∈ formParts input cc urls f)) ∧
    ((makeRequestAsync (PredevAPI.create config) endpoint input cc urls none).headers
        = (PredevAPI.create config).headers ∧
      lookupKey (makeRequestAsync (PredevAPI.create config) endpoint input cc urls none).headers
          "Content-Type" = some "application/json" ∧
      (makeRequestAsync (PredevAPI.create config) endpoint input cc urls none).body
        = .json (.obj (jsonPayloadAsync input cc urls))) ∧
    ((makeRequestAsync (PredevAPI.create config) endpoint input cc urls (some f)).headers
        = [("Authorization", "Bearer " ++ config.apiKey)] ∧
      lookupKey (makeRequestAsync (PredevAPI.create config) endpoint input cc urls (some f)).headers
          "Content-Type" = none ∧
      (makeRequestAsync (PredevAPI.create config) endpoint input cc urls (some f)).body
        = .form (formPartsAsync input cc urls f) ∧
      FormPart.text "input" input ∈ formPartsAsync input cc urls f ∧
      (∀ ctx, cc = some ctx →
        FormPart.text "currentContext" ctx ∈ formPartsAsync input cc urls f) ∧
      (∀ ds, urls = some ds →
        FormPart.text "docURLs" (jsonStringify (.arr (ds.map Json.str)))
          ∈ formPartsAsync input cc urls f)) := by
  refine ⟨⟨rfl, rfl, rfl⟩, ⟨rfl, rfl, rfl, ?_, ?_, ?_⟩,
    ⟨rfl, rfl, rfl⟩, ⟨rfl, rfl, rfl, ?_, ?_, ?_⟩⟩
  · simp [formParts]
  · intro ctx h
    subst h
    simp [formParts]
  · intro ds h
    subst h
    simp [formParts]
  · simp [formPartsAsync]
  · intro ctx h
    subst h
    simp [formPartsAsync]
  · intro ds h
    subst h
    simp [formPartsAsync]

/-- C3 witness: a concrete file request — sync and async — has no
`Content-Type` header and its form carries the context and the JSON-encoded
docURLs as text parts. -/
theorem claim3_witness :
    lookupKey (makeRequest (PredevAPI.create ⟨"k", none⟩) "/fast-spec" "hi"
        (some "ctx") (some ["https://docs.example"]) (some (.buffer [1, 2] "r.pdf"))).headers
      "Content-Type" = none ∧
    FormPart.text "currentContext" "ctx"
      ∈ formParts "hi" (some "ctx") (some ["https://docs.example"]) (.buffer [1, 2] "r.pdf") ∧
    FormPart.text "docURLs" (jsonStringify (.arr [.str "https://docs.example"]))
      ∈ formParts "hi" (some "ctx") (some ["https://docs.example"]) (.buffer [1, 2] "r.pdf") ∧
    lookupKey (makeRequestAsync (PredevAPI.create ⟨"k", none⟩) "/fast-spec" "hi"
        (some "ctx") (some ["https://docs.example"]) (some (.buffer [1, 2] "r.pdf"))).headers
      "Content-Type" = none ∧
    FormPart.text "currentContext" "ctx"
      ∈ formPartsAsync "hi" (some "ctx") (some ["https://docs.example"]) (.buffer [1, 2] "r.pdf") := by
  obtain ⟨-, hB, -, hD⟩ := claim3_encoding_selection ⟨"k", none⟩ "/fast-spec" "hi"
    (some "ctx") (some ["https://docs.example"]) (.buffer [1, 2] "r.pdf")
  exact ⟨hB.2.1, hB.2.2.2.2.1 "ctx" rfl,
    hB.2.2.2.2.2 ["https://docs.example"] rfl, hD.2.1, hD.2.2.2.2.1 "ctx" rfl⟩

/-- C7: a list call with `limit=10, skip=5` and no other filter produces
exactly the query parameters `limit=10` and `skip=5`; every search call
appends the required `query` parameter first and URL-encodes it (`"^Build"`
serializes to `query=%5EBuild`), and a supplied status filter appears as
`status=completed`. -/
theorem claim7_query_strings (p : FindSpecsParams) :
    listSpecsQueryList (some ⟨some 10, some 5, none, none⟩)
      = [("limit", "10"), ("skip", "5")] ∧
    serializeQuery (listSpecsQueryList (some ⟨some 10, some 5, none, none⟩))
      = "limit=10&skip=5" ∧
    (listSpecsRequest (PredevAPI.create ⟨"key", none⟩)
        (some ⟨some 10, some 5, none, none⟩)).url
      = "https://api.pre.dev/list-specs?limit=10&skip=5" ∧
    (findSpecsQueryList p).head? = some ("query", p.query) ∧
    lookupKey (findSpecsQueryList p) "query" = some p.query ∧
    serializeQuery (findSpecsQueryList ⟨"^Build", none, none, none, some "completed"⟩)
      = "query=%5EBuild&status=completed" ∧
    (findSpecsRequest (PredevAPI.create ⟨"key", none⟩)
        ⟨"^Build", none, none, none, some "completed"⟩).url
      = "https://api.pre.dev/find-specs?query=%5EBuild&status=completed" := by
  refine ⟨rfl, by decide, by decide, rfl, rfl, by decide, by decide⟩

/-- C8: every outbound request of every operation carries the credential in
exactly one `Authorization` bearer header, fixed at client construction from
the configured API key, and never a dedicated `x-api-key` header. -/
theorem claim8_auth_header (config : PredevAPIConfig) (op : Operation) :
    (PredevAPI.create config).headers
      = [("Authorization", "Bearer " ++ config.apiKey),
         ("Content-Type", "application/json")] ∧
    lookupKey (Operation.request (PredevAPI.create config) op).headers "Authorization"
      = some ("Bearer " ++ config.apiKey) ∧
    lookupKey (Operation.request (PredevAPI.create config) op).headers "x-api-key"
      = none ∧
    ((Operation.request (PredevAPI.create config) op).headers.filter
        (fun h => h.1 == "Authorization")).length = 1 := by
  cases op with
  | fastSpec o => obtain ⟨i, cc, u, f⟩ := o; cases f <;> exact ⟨rfl, rfl, rfl, rfl⟩
  | deepSpec o => obtain ⟨i, cc, u, f⟩ := o; cases f <;> exact ⟨rfl, rfl, rfl, rfl⟩
  | fastSpecAsync o => obtain ⟨i, cc, u, f⟩ := o; cases f <;> exact ⟨rfl, rfl, rfl, rfl⟩
  | deepSpecAsync o => obtain ⟨i, cc, u, f⟩ := o; cases f <;> exact ⟨rfl, rfl, rfl, rfl⟩
  | getSpecStatus s => exact ⟨rfl, rfl, rfl, rfl⟩
  | listSpecs ps => exact ⟨rfl, rfl, rfl, rfl⟩
  | findSpecs ps => exact ⟨rfl, rfl, rfl, rfl⟩
  | getCreditsBalance => exact ⟨rfl, rfl, rfl, rfl⟩

/-- C1 counterexample: for a 500 response whose body is unparseable JSON and
whose raw text is empty, the raised message falls back to `"Unknown error"`,
not to the claimed generic `"HTTP 500"` string. -/
theorem claim1_counterexample :
    handleResponse ⟨500, .error "Unexpected end of JSON input", .ok ""⟩
      = .error (.api (.predev "API request failed with status 500: Unknown error")) ∧
    "API request failed with status 500: Unknown error"
      ≠ "API request failed with status 500: HTTP 500" :=
  ⟨rfl, by decide⟩

/-- C1 (amended): for every non-2xx response other than 401/429,
`handleResponse` raises a `PredevAPIError` whose message always includes the
numeric status and is built by taking the parsed non-null body's `error`
field, else its `message` field, else the JSON-stringified body; if JSON
parsing fails — or the body parses to JSON `null`, on which the field access
throws inside the try block — it falls back to the raw response text when
that is non-empty, to `"Unknown error"` when the text is empty, and to
`"HTTP <status>"` only when reading the text itself throws; no secondary
parsing exception ever escapes. -/
theorem claim1_error_message (r : Response) (hok : r.ok = false)
    (h401 : r.status ≠ 401) (h429 : r.status ≠ 429) :
    handleResponse r = .error (.api (.predev
      ("API request failed with status " ++ toString r.status ++ ": " ++
        (match r.jsonBody with
         | .ok Json.null =>
             (match r.textBody with
              | .ok textError =>
                  if textError = "" then "Unknown error" else textError
              | .error _ => "HTTP " ++ toString r.status)
         | .ok errorData =>
             jsFieldOr errorData "error"
               (jsFieldOr errorData "message" (jsonStringify errorData))
         | .error _ =>
             (match r.textBody with
              | .ok textError =>
                  if textError = "" then "Unknown error" else textError
              | .error _ => "HTTP " ++ toString r.status))))) := by
  unfold handleResponse
  rw [hok]
  cases hj : r.jsonBody with
  | error m => simp [h401, h429, hj]
  | ok d => cases d <;> simp [h401, h429, hj, errorBodyMessage]

/-- C1 witness: a 500 response with body `{"error": "X"}` raises the message
`API request failed with status 500: X`. -/
theorem claim1_witness :
    Response.ok ⟨500, .ok (.obj [("error", .str "X")]), .ok ""⟩ = false ∧
    handleResponse ⟨500, .ok (.obj [("error", .str "X")]), .ok ""⟩
      = .error (.api (.predev "API request failed with status 500: X")) :=
  ⟨rfl, by
    have h := claim1_error_message ⟨500, .ok (.obj [("error", .str "X")]), .ok ""⟩
      rfl (by decide) (by decide)
    exact h⟩

/-- C5 counterexample: a `Blob` attachment with content type `text/plain` and
name `notes.md` is uploaded under the filename `upload.txt` — the declared
content type wins over the present name, contradicting the claimed
name-first rule. -/
theorem claim5_counterexample :
    getFileName (.blob [] "text/plain" (some "notes.md")) = "upload.txt" ∧
    "upload.txt" ≠ "notes.md" :=
  ⟨rfl, by decide⟩

/-- C5 (amended): the file is appended as a binary part under the fixed field
name `"file"` with filename `getFileName`; a `Blob` with a non-empty declared
content type is always named `upload.pdf` (PDF type) or `upload.txt` (any
other type), its own name being ignored; the attachment's name is used only
for a Node-style buffer attachment or a `Blob` without a declared type, with
`upload.txt` as the fallback when no non-empty name is available. -/
theorem claim5_filename_rules (c : PredevAPI) (url input : String)
    (cc : Option String) (urls : Option (List String)) (f : JsFile)
    (data : List Nat) (t n : String) (nm : Option String) :
    ((makeRequestWithFile c url input cc urls f).body
        = .form (formParts input cc urls f) ∧
      FormPart.file "file" (normalizeFile f) (getFileName f)
        ∈ formParts input cc urls f) ∧
    ((makeRequestWithFileAsync c url input cc urls f).body
        = .form (formPartsAsync input cc urls f) ∧
      FormPart.file "file" (normalizeFile f) (getFileName f)
        ∈ formPartsAsync input cc urls f) ∧
    (t ≠ "" → getFileName (.blob data t nm)
      = (if t = "application/pdf" then "upload.pdf" else "upload.txt")) ∧
    (n ≠ "" → getFileName (.blob data "" (some n)) = n
      ∧ getFileName (.buffer data n) = n) ∧
    getFileName (.blob data "" none) = "upload.txt" ∧
    getFileName (.buffer data "") = "upload.txt" := by
  refine ⟨⟨rfl, by simp [formParts]⟩, ⟨rfl, by simp [formPartsAsync]⟩, ?_, ?_, rfl, rfl⟩
  · intro ht
    simp [getFileName, ht]
  · intro hn
    constructor <;> simp [getFileName, hn]

/-- C5 witness: concrete filenames for a typed Blob, an untyped named Blob
and a named buffer. -/
theorem claim5_witness :
    getFileName (.blob [7] "application/pdf" (some "spec.pdf")) = "upload.pdf" ∧
    getFileName (.blob [7] "" (some "notes.md")) = "notes.md" ∧
    getFileName (.buffer [7] "req.docx") = "req.docx" ∧
    FormPart.file "file" (normalizeFile (.buffer [7] "req.docx"))
        (getFileName (.buffer [7] "req.docx"))
      ∈ formPartsAsync "i" none none (.buffer [7] "req.docx") :=
  ⟨by
    have h := (claim5_filename_rules (PredevAPI.create ⟨"k", none⟩) "u" "i"
      none none (.buffer [] "x") [7] "application/pdf" "y" (some "spec.pdf")).2.2.1
      (by decide)
    simpa using h,
   by
    have h := (claim5_filename_rules (PredevAPI.create ⟨"k", none⟩) "u" "i"
      none none (.buffer [] "x") [7] "t" "notes.md" none).2.2.2.1 (by decide)
    exact h.1,
   by
    have h := (claim5_filename_rules (PredevAPI.create ⟨"k", none⟩) "u" "i"
      none none (.buffer [] "x") [7] "t" "req.docx" none).2.2.2.1 (by decide)
    exact h.2,
   (claim5_filename_rules (PredevAPI.create ⟨"k", none⟩) "u" "i"
      none none (.buffer [7] "req.docx") [7] "t" "y" none).2.1.2⟩

/-- C10 counterexample: a configured base URL ending in a double slash keeps
one trailing slash after normalization, so the path join does introduce a
double slash, contradicting the claim's final clause. -/
theorem claim10_counterexample :
    (PredevAPI.create ⟨"k", some "https://api.pre.dev//"⟩).baseUrl
      = "https://api.pre.dev/" ∧
    (PredevAPI.create ⟨"k", some "https://api.pre.dev//"⟩).baseUrl.data.getLast?
      = some '/' ∧
    (Operation.request (PredevAPI.create ⟨"k", some "https://api.pre.dev//"⟩)
        (.fastSpec ⟨"x", none, none, none⟩)).url
      = "https://api.pre.dev//fast-spec" := by
  refine ⟨by decide, by decide, by decide⟩

/-- C10 (amended): the stored base URL is the default `https://api.pre.dev`
when the configured value is absent, empty, or exactly `/`; otherwise it is
the configured value with at most one trailing slash removed; and whenever
the configured value does not end in two consecutive slashes the stored
value has no trailing slash, so the path join introduces no double slash. -/
theorem claim10_base_url (key s : String) :
    (PredevAPI.create ⟨key, none⟩).baseUrl = "https://api.pre.dev" ∧
    (PredevAPI.create ⟨key, some ""⟩).baseUrl = "https://api.pre.dev" ∧
    (PredevAPI.create ⟨key, some "/"⟩).baseUrl = "https://api.pre.dev" ∧
    (s ≠ "" → s ≠ "/" →
      (PredevAPI.create ⟨key, some s⟩).baseUrl = replaceTrailingSlash s) ∧
    (replaceTrailingSlash s = s
      ∨ replaceTrailingSlash s = String.mk s.data.dropLast) ∧
    (s.data.reverse.take 2 ≠ ['/', '/'] →
      (PredevAPI.create ⟨key, some s⟩).baseUrl.data.getLast? ≠ some '/') ∧
    (PredevAPI.create ⟨key, none⟩).baseUrl.data.getLast? ≠ some '/' := by
  refine ⟨rfl, rfl, rfl, ?_, ?_, ?_, by
    show ("https://api.pre.dev" : String).data.getLast? ≠ some '/'
    decide⟩
  · intro h1 h2
    show jsOrDefault (replaceTrailingSlash s) "https://api.pre.dev"
      = replaceTrailingSlash s
    unfold jsOrDefault
    rw [if_neg]
    intro he
    unfold replaceTrailingSlash at he
    by_cases hl : s.data.getLast? = some '/'
    · rw [if_pos hl] at he
      have hd : s.data.dropLast = [] := by
        simpa using congrArg String.data he
      obtain ⟨ys, hys⟩ := List.getLast?_eq_some_iff.mp hl
      rw [hys, List.dropLast_concat] at hd
      subst hd
      apply h2
      cases s with
      | mk d =>
        rw [show d = ['/'] by simpa using hys]
    · rw [if_neg hl] at he
      exact h1 he
  · unfold replaceTrailingSlash
    by_cases hl : s.data.getLast? = some '/'
    · right; rw [if_pos hl]
    · left; rw [if_neg hl]
  · intro h2
    show (jsOrDefault (replaceTrailingSlash s) "https://api.pre.dev").data.getLast?
      ≠ some '/'
    unfold jsOrDefault replaceTrailingSlash
    by_cases hl : s.data.getLast? = some '/'
    · rw [if_pos hl]
      by_cases he : String.mk s.data.dropLast = ""
      · rw [if_pos he]; decide
      · rw [if_neg he]
        exact dropLast_getLast?_ne_slash s.data hl h2
    · rw [if_neg hl]
      by_cases he : s = ""
      · rw [if_pos he]
        decide
      · rw [if_neg he]
        exact hl

/-- C10 witness: a base URL with a single trailing slash is stripped to a
value with no trailing slash. -/
theorem claim10_witness :
    (PredevAPI.create ⟨"k", some "https://custom.api.com/"⟩).baseUrl
      = replaceTrailingSlash "https://custom.api.com/" ∧
    (PredevAPI.create ⟨"k", some "https://custom.api.com/"⟩).baseUrl.data.getLast?
      ≠ some '/' :=
  ⟨(claim10_base_url "k" "https://custom.api.com/").2.2.2.1
      (by decide) (by decide),
   (claim10_base_url "k" "https://custom.api.com/").2.2.2.2.2.1 (by decide)⟩

end Predev
